import Mathlib

/-!
Shallow embedding of the Stockfish Docker client
(`python_client/client.py`) together with proofs about its
specification.

Modelling conventions: Python strings are Lean `String`s manipulated
through their character lists; Python `int` is `ℤ`; Python `float`
values are `PyNum` — an exact rational together with the infinities and
NaN that `float(<string>)` can produce (IEEE rounding of finite decimal
literals is abstracted to the exact rational value, which preserves all
equalities the source establishes between parsed values); Python `None`
is `Option.none`; a function that can raise and whose exception is
caught by the program is `Option`-valued.
-/

namespace StockfishClient

set_option maxRecDepth 40000

/-- Whitespace as recognised by Python's `str.split()` / `str.strip()`,
restricted to the six ASCII whitespace characters (Python also treats
`\x1c`–`\x1f`, `\x85`, `\xa0` and other Unicode spaces as whitespace;
engine output is ASCII, and no claim depends on the difference). -/
def isPySpace (c : Char) : Bool :=
  c = ' ' || c = '\t' || c = '\n' || c = '\r' || c = '\x0b' || c = '\x0c'

/-- Characters of a string with leading and trailing whitespace removed. -/
def stripChars (cs : List Char) : List Char :=
  ((cs.dropWhile isPySpace).reverse.dropWhile isPySpace).reverse

/-- Python `str.strip()` (with no argument: strip whitespace). -/
def pyStrip (s : String) : String :=
  ⟨stripChars s.data⟩

/-- Helper for `splitWsChars`: `cur` is the current token, reversed. -/
def splitWsGo (cur : List Char) : List Char → List (List Char)
  | [] => if cur = [] then [] else [cur.reverse]
  | c :: cs =>
      if isPySpace c then
        if cur = [] then splitWsGo [] cs else cur.reverse :: splitWsGo [] cs
      else
        splitWsGo (c :: cur) cs

/-- Split a character list on runs of whitespace, dropping empty pieces. -/
def splitWsChars (cs : List Char) : List (List Char) :=
  splitWsGo [] cs

/-- Python `str.split()` with no argument. -/
def pySplit (s : String) : List String :=
  (splitWsChars s.data).map (fun cs => ⟨cs⟩)

/-- Helper: does `p` occur at the head of `s`? -/
def listStarts : List Char → List Char → Bool
  | _, [] => true
  | [], _ :: _ => false
  | c :: cs, p :: ps => c == p && listStarts cs ps

/-- Python `str.startswith`. -/
def pyStartsWith (s pre : String) : Bool :=
  listStarts s.data pre.data

/-- Python `str.lower()` (ASCII case folding suffices for this program). -/
def pyLower (s : String) : String :=
  ⟨s.data.map Char.toLower⟩

/-- Value of an ASCII digit character. -/
def digitVal (c : Char) : Nat :=
  c.toNat - 48

/-- Tail of a digit group: digits, with single underscores allowed
between digits (Python numeric-literal syntax).  Returns the
accumulated value, the number of digits read, and the unread rest. -/
def digitTail (acc cnt : Nat) : List Char → Nat × Nat × List Char
  | [] => (acc, cnt, [])
  | c :: cs =>
      if c.isDigit then digitTail (acc * 10 + digitVal c) (cnt + 1) cs
      else if c = '_' then
        match cs with
        | d :: cs2 =>
            if d.isDigit then digitTail (acc * 10 + digitVal d) (cnt + 1) cs2
            else (acc, cnt, c :: cs)
        | [] => (acc, cnt, [c])
      else (acc, cnt, c :: cs)

/-- A digit group must begin with a digit; returns its value, its digit
count and the unread rest, or `none` if no digit is present. -/
def digitGroup : List Char → Option (Nat × Nat × List Char)
  | [] => none
  | c :: cs => if c.isDigit then some (digitTail (digitVal c) 1 cs) else none

/-- Python `int(<string>)`: optional surrounding whitespace, optional
sign, then a base-10 digit group filling the whole rest of the string
(ASCII digits only; Python also accepts Unicode decimal digits, which
no engine emits and no claim depends on).  `none` models the
`ValueError` the program catches.  The conversion itself is
arbitrary-precision and never overflows. -/
def pyInt (s : String) : Option ℤ :=
  let cs1 := stripChars s.data
  let signRest : Bool × List Char :=
    match cs1 with
    | '+' :: r => (false, r)
    | '-' :: r => (true, r)
    | r => (false, r)
  match digitGroup signRest.2 with
  | some (v, _, rest) =>
      if rest = [] then some (if signRest.1 then -(v : ℤ) else (v : ℤ)) else none
  | none => none

/-- Result of a Python `float(<string>)` conversion: an exact finite
rational, a signed infinity, or NaN. -/
inductive PyNum where
  | finite (q : ℚ)
  | inf (pos : Bool)
  | nan
deriving DecidableEq, Repr

/-- Mantissa of a float literal: `digits`, `digits.`, `digits.digits`
or `.digits`, underscores allowed inside each digit group.  The value
is returned unreduced as an integer numerator together with the number
of fraction digits (the value is `num / 10 ^ fracDigits`), so that the
rational is built by a single kernel-reducible `Rat.divInt` at the
end. -/
def parseMantissa (cs : List Char) : Option (ℤ × ℕ × List Char) :=
  match digitGroup cs with
  | some (iv, _, rest) =>
      match rest with
      | '.' :: rest2 =>
          match digitGroup rest2 with
          | some (fv, fc, rest3) =>
              some (((iv : ℤ) * (10 : ℤ) ^ fc + (fv : ℤ), fc, rest3))
          | none => some ((iv : ℤ), 0, rest2)
      | _ => some ((iv : ℤ), 0, rest)
  | none =>
      match cs with
      | '.' :: rest2 =>
          match digitGroup rest2 with
          | some (fv, fc, rest3) => some ((fv : ℤ), fc, rest3)
          | none => none
      | _ => none

/-- Optional exponent part closing a float literal: scales the
numerator or the denominator power of ten; fails unless the remaining
characters are empty or a well-formed exponent.  Returns the exact
value as (numerator, power of ten of the denominator). -/
def parseExpPart (num : ℤ) (fd : ℕ) (cs : List Char) : Option (ℤ × ℕ) :=
  match cs with
  | [] => some (num, fd)
  | e :: rest =>
      if e = 'e' ∨ e = 'E' then
        let signRest : Bool × List Char :=
          match rest with
          | '+' :: r => (false, r)
          | '-' :: r => (true, r)
          | r => (false, r)
        match digitGroup signRest.2 with
        | some (ev, _, rest3) =>
            if rest3 = [] then
              some (if signRest.1 then (num, fd + ev)
                    else (num * (10 : ℤ) ^ ev, fd))
            else none
        | none => none
      else none

/-- Smallest integer magnitude whose conversion to an IEEE binary64
double overflows under round-to-nearest-even: the midpoint between the
largest finite double, 2^1024 − 2^971, and 2^1024 rounds to the even
candidate 2^1024, i.e. to infinity, so magnitudes at or above the
midpoint 2^1024 − 2^970 overflow.  CPython raises `OverflowError` when
converting an `int` at or above this bound to a `float`.  (Written
with nested exponents so the elaborator evaluates it; the theorem
`doubleOverflowBound_eq` below states the plain form.) -/
def doubleOverflowBound : ℕ :=
  ((2 : ℕ) ^ 256) ^ 4 - ((2 : ℕ) ^ 97) ^ 10

/-- Does converting the integer `n` to a Python float raise
`OverflowError`? -/
def intToFloatOverflows (n : ℤ) : Bool :=
  doubleOverflowBound ≤ n.natAbs

/-- Does the exact decimal value `num / 10 ^ dpow` round to an IEEE
binary64 infinity (CPython's `float(<string>)` returns `inf` rather
than raising in that case)? -/
def decimalOverflowsDouble (num : ℤ) (dpow : ℕ) : Bool :=
  doubleOverflowBound * 10 ^ dpow ≤ num.natAbs

/-- Python `float(<string>)`: optional whitespace and sign, then
`inf`/`infinity`/`nan` (case-insensitive) or a decimal literal.
`none` models the `ValueError` the program catches.  Out-of-range
decimal literals become the signed infinities, as in CPython's
correctly-rounded conversion; in-range values are kept as exact
rationals (IEEE rounding is abstracted, and magnitudes that would
underflow to zero are likewise kept exact).  ASCII digits only, like
the rest of the string model. -/
def pyFloat (s : String) : Option PyNum :=
  let cs1 := stripChars s.data
  let signRest : Bool × List Char :=
    match cs1 with
    | '+' :: r => (false, r)
    | '-' :: r => (true, r)
    | r => (false, r)
  let low := signRest.2.map Char.toLower
  if low = "inf".data ∨ low = "infinity".data then some (.inf (!signRest.1))
  else if low = "nan".data then some .nan
  else
    match parseMantissa signRest.2 with
    | some (num, fd, rest) =>
        match parseExpPart (if signRest.1 then -num else num) fd rest with
        | some (n2, dpow) =>
            if decimalOverflowsDouble n2 dpow then
              some (if n2 < 0 then .inf false else .inf true)
            else some (.finite (Rat.divInt n2 ((10 : ℤ) ^ dpow)))
        | none => none
    | none => none

/-- The `Evaluation` dataclass of `client.py`. -/
structure Evaluation where
  score_type : String
  score_value : PyNum
  depth : ℤ
deriving DecidableEq, Repr

/-- The `Prediction` dataclass of `client.py`. -/
structure Prediction where
  bestmove : String
  ponder : Option String
  evaluation : Evaluation
deriving DecidableEq, Repr

/-- The `depth` computation of `_parse_evaluation`: if a `depth` token
is present and the token after it parses as an integer, that integer;
otherwise 0 (also when the token after it is missing or unparseable). -/
def depthOf (tokens : List String) : ℤ :=
  if "depth" ∈ tokens then
    match tokens[tokens.indexOf "depth" + 1]? with
    | some dv => (pyInt dv).getD 0
    | none => 0
  else 0

/-- `StockfishDockerClient._parse_evaluation`, restricted to the
inputs on which it returns: split the line on whitespace; fail if
`score` is absent or not followed by two tokens; read the score type
and raw value; `cp` divides the integer value by 100, `mate` keeps it,
any other type is converted with `float`; any caught conversion
failure (`ValueError`/`IndexError`) makes the whole parse return
`none`.  The one input class on which the source RAISES instead of
returning — the `cp` division's int-to-float conversion overflows and
the `OverflowError` escapes the `except ValueError` — is modelled by
`parse_evaluation_outcome` below; on every other input the two
definitions agree (`parse_outcome_refines`). -/
def parse_evaluation (raw_line : String) : Option Evaluation :=
  let tokens := pySplit raw_line
  if "score" ∈ tokens then
    let score_index := tokens.indexOf "score"
    match tokens[score_index + 1]?, tokens[score_index + 2]? with
    | some score_type, some score_value =>
        let depth : ℤ := depthOf tokens
        if score_type = "cp" then
          (pyInt score_value).map
            (fun n => ⟨score_type, .finite (Rat.divInt n 100), depth⟩)
        else if score_type = "mate" then
          (pyInt score_value).map
            (fun (n : ℤ) => ⟨score_type, .finite (n : ℚ), depth⟩)
        else
          (pyFloat score_value).map
            (fun x => ⟨score_type, x, depth⟩)
    | _, _ => none
  else none

/-- `StockfishDockerClient._parse_evaluation` with its error path kept:
`.ok` models a normal return (`some`/`None`), `.error ()` models the
uncaught `OverflowError` raised at `int(score_value) / 100.0` when the
parsed `cp` integer is at or beyond double range — `except ValueError`
does not catch it, so it propagates to the caller.  The `mate` branch
keeps the arbitrary-precision integer (no float conversion, no raise)
and the pass-through branch's `float()` returns `inf` rather than
raising, so no other branch can raise. -/
def parse_evaluation_outcome (raw_line : String) :
    Except Unit (Option Evaluation) :=
  let tokens := pySplit raw_line
  if "score" ∈ tokens then
    let score_index := tokens.indexOf "score"
    match tokens[score_index + 1]?, tokens[score_index + 2]? with
    | some score_type, some score_value =>
        let depth : ℤ := depthOf tokens
        if score_type = "cp" then
          match pyInt score_value with
          | some n =>
              if intToFloatOverflows n then .error ()
              else .ok (some ⟨score_type, .finite (Rat.divInt n 100), depth⟩)
          | none => .ok none
        else if score_type = "mate" then
          .ok ((pyInt score_value).map
            (fun (n : ℤ) => ⟨score_type, .finite (n : ℚ), depth⟩))
        else
          .ok ((pyFloat score_value).map
            (fun x => ⟨score_type, x, depth⟩))
    | _, _ => .ok none
  else .ok none

/-- Join a list of move tokens with single spaces (`" ".join(moves)`). -/
def joinSpace (ms : List String) : String :=
  String.intercalate " " ms

/-- The command script built at the top of `_query_engine`: `uci`,
`isready`, `ucinewgame`, one `position` command chosen from the
truthiness of the moves payload and whether `fen` is the literal
`"startpos"`, then `go depth <depth>`.  `moves = none` models Python's
`moves=None`; a `some` empty list is falsy in Python, exactly like
`None`. -/
def buildCommands (fen : String) (depth : ℤ) (moves : Option (List String)) :
    List String :=
  let start : List String := ["uci", "isready", "ucinewgame"]
  let movesPayload : Option (List String) :=
    match moves with
    | some ms => if ms = [] then none else some ms
    | none => none
  let withPosition : List String :=
    match movesPayload with
    | some ms =>
        if fen = "startpos" then
          start ++ ["position startpos moves " ++ joinSpace ms]
        else
          start ++ ["position fen " ++ fen ++ " moves " ++ joinSpace ms]
    | none =>
        if fen = "startpos" then start ++ ["position startpos"]
        else start ++ ["position fen " ++ fen]
  withPosition ++ ["go depth " ++ toString depth]

/-- Mutable state of the streaming read loop of `_query_engine`. -/
structure LoopState where
  bestmove : Option String
  ponder : Option String
  evaluation : Option Evaluation
  best_depth : ℤ
deriving DecidableEq, Repr

/-- Loop state just before the first output line is read. -/
def initState : LoopState :=
  { bestmove := none, ponder := none, evaluation := none, best_depth := -1 }

/-- Handling of a `bestmove` line: the second token (if any) is the
best move, and the token after a `ponder` token (if any) is the ponder
move. -/
def bestmoveStep (st : LoopState) (line : String) : LoopState :=
  let tokens := pySplit line
  let st1 :=
    match tokens with
    | _ :: m :: _ => { st with bestmove := some m }
    | _ => st
  if "ponder" ∈ tokens then
    match tokens[tokens.indexOf "ponder" + 1]? with
    | some p => { st1 with ponder := some p }
    | none => st1
  else st1

/-- The streaming read loop of `_query_engine`: strip each line, skip
blanks, track the best evaluation from `info` lines (replace when the
parsed depth is `>=` the best depth seen so far), and stop at the first
`bestmove` line without reading further lines. -/
def runLoop : List String → LoopState → LoopState
  | [], st => st
  | raw :: rest, st =>
      let line := pyStrip raw
      if line = "" then runLoop rest st
      else if pyStartsWith line "info" then
        let st1 :=
          match parse_evaluation line with
          | some parsed =>
              if st.best_depth ≤ parsed.depth then
                { st with evaluation := some parsed, best_depth := parsed.depth }
              else st
          | none => st
        runLoop rest st1
      else if pyStartsWith line "bestmove" then bestmoveStep st line
      else runLoop rest st

/-- The streaming read loop with the parser's uncaught `OverflowError`
kept: the exception raised while handling an `info` line aborts the
loop and propagates out of `_query_engine` to the caller (the `finally`
only kills the engine process).  On sessions where no line raises,
this agrees with `runLoop` (`runLoopE_refines`). -/
def runLoopE : List String → LoopState → Except Unit LoopState
  | [], st => .ok st
  | raw :: rest, st =>
      let line := pyStrip raw
      if line = "" then runLoopE rest st
      else if pyStartsWith line "info" then
        match parse_evaluation_outcome line with
        | .error e => .error e
        | .ok parsedOpt =>
            let st1 :=
              match parsedOpt with
              | some parsed =>
                  if st.best_depth ≤ parsed.depth then
                    { st with evaluation := some parsed,
                              best_depth := parsed.depth }
                  else st
              | none => st
            runLoopE rest st1
      else if pyStartsWith line "bestmove" then .ok (bestmoveStep st line)
      else runLoopE rest st

/-- A 400-digit raw score token, 10^400 − 1: far beyond the double
range, so the source's `cp` branch raises `OverflowError` on it. -/
def hugeCpToken : String :=
  ⟨List.replicate 400 '9'⟩

/-- An `info` line carrying the out-of-range centipawn value. -/
def hugeCpLine : String :=
  "info score cp " ++ hugeCpToken

deriving instance DecidableEq for Except

/-- Errors `_query_engine` can raise after the read loop. -/
inductive QueryError where
  | engineFailure (message : String)
  | protocolFailure
deriving DecidableEq, Repr

/-- The fallback evaluation synthesised when a bestmove was reported
but no usable evaluation was ever tracked. -/
def fallbackEvaluation (depth : ℤ) : Evaluation :=
  { score_type := "cp", score_value := .finite 0, depth := depth }

/-- Post-loop logic of `_query_engine`, as a function of the loop
state computed from the engine's output lines, the process exit code
after the post-quit wait (`none` models Python's `None`) and the
captured standard-error text: a non-zero exit code fails first, then a
missing bestmove, then a missing evaluation is replaced by the
fallback. -/
def queryResult (depth : ℤ) (outputLines : List String)
    (returncode : Option ℤ) (stderrOutput : String) :
    Except QueryError Prediction :=
  let st := runLoop outputLines initState
  if returncode = some 0 ∨ returncode = none then
    match st.bestmove with
    | none => .error .protocolFailure
    | some bm =>
        let evaluation := st.evaluation.getD (fallbackEvaluation depth)
        .ok { bestmove := bm, ponder := st.ponder, evaluation := evaluation }
  else
    .error (.engineFailure ("Stockfish process failed: " ++ pyStrip stderrOutput))

/-- Outcome of the external `docker inspect` status check: the binary
is missing (`FileNotFoundError`), the command exited non-zero
(`CalledProcessError`), or it succeeded with some standard output. -/
inductive InspectOutcome where
  | fileNotFound
  | calledProcessError
  | success (stdout : String)

/-- `StockfishDockerClient.is_service_ready`: both failure modes of the
status check return `false`; on success the stripped, lower-cased
output is compared with the sentinel `"true"`. -/
def is_service_ready : InspectOutcome → Bool
  | .fileNotFound => false
  | .calledProcessError => false
  | .success out => pyLower (pyStrip out) = "true"

/-!
Specification-side definitions.  These follow the words of `spec.md`
(not the source) and are compared with the source-side definitions
above by the refinement theorems below.
-/

/-- Spec §4.2: the single `position` command, as the spec words it
("`position startpos` if no moves, `position startpos moves ...` if
moves are supplied with the start position, `position fen <fen>` or
`position fen <fen> moves ...` otherwise"). -/
def specPositionCommand (fen : String) (moves : List String) : String :=
  if moves = [] then
    if fen = "startpos" then "position startpos" else "position fen " ++ fen
  else if fen = "startpos" then "position startpos moves " ++ joinSpace moves
  else "position fen " ++ fen ++ " moves " ++ joinSpace moves

/-- Spec §4.2: the fixed five-command script, in order. -/
def specCommandScript (fen : String) (depth : ℤ) (moves : Option (List String)) :
    List String :=
  ["uci", "isready", "ucinewgame", specPositionCommand fen (moves.getD []),
    "go depth " ++ toString depth]

/-- The evaluation an output line contributes to best-tracking: only a
non-blank line starting with `info` is parsed. -/
def trackedCandidate (raw : String) : Option Evaluation :=
  let line := pyStrip raw
  if line = "" then none
  else if pyStartsWith line "info" then parse_evaluation line
  else none

/-- All successfully parsed `info`-line evaluations of a line sequence,
in order of arrival. -/
def parsedInfoEvals (lines : List String) : List Evaluation :=
  lines.filterMap trackedCandidate

/-- Spec-side tie-break: of two evaluations, the deeper one, and the
later one at equal depth. -/
def deeperOrLater (b x : Evaluation) : Evaluation :=
  if b.depth ≤ x.depth then x else b

/-- Spec-side selection: the evaluation of maximum depth, ties resolved
in favor of the most recently seen one. -/
def lastArgmaxDepth : List Evaluation → Option Evaluation
  | [] => none
  | e :: es => some (es.foldl deeperOrLater e)

/-- One step of the loop's evaluation tracking, on the pair
(tracked evaluation, best depth). -/
def evalStep (p : Option Evaluation × ℤ) (e : Evaluation) :
    Option Evaluation × ℤ :=
  if p.2 ≤ e.depth then (some e, e.depth) else p

/-- The loop's evaluation tracking over a list of parsed evaluations. -/
def evalFold (es : List Evaluation) (p : Option Evaluation × ℤ) :
    Option Evaluation × ℤ :=
  es.foldl evalStep p

/-- Spec §4.1: case-insensitive string match. -/
def caseInsensitiveEq (a b : String) : Prop :=
  pyLower a = pyLower b

/-!
Theorems.  Evaluation of the model on concrete engine output, general
lemmas about the read loop, and the claim theorems.
-/

/-- The `cp` branch divides the raw integer by `100.0`; in the model
the rational is built with `Rat.divInt`, which equals that division. -/
theorem divInt_hundred_eq_div (n : ℤ) : Rat.divInt n 100 = (n : ℚ) / 100 := by
  rw [Rat.divInt_eq_div]; norm_num

example : pySplit "  info depth 3  score cp 10 " =
    ["info", "depth", "3", "score", "cp", "10"] := by decide

example : pyInt "-25" = some (-25) := by decide

example : pyInt "2_5" = some 25 := by decide

example : pyInt "25x" = none := by decide

example : pyFloat "3.5" = some (.finite (Rat.divInt 7 2)) := by decide

example : pyFloat "-1.5e2" = some (.finite (Rat.divInt (-150) 1)) := by decide

example : pyFloat "inf" = some (.inf true) := by decide

example : pyFloat "abc" = none := by decide

example : parse_evaluation "info depth 4 score cp 25 nodes 100" =
    some ⟨"cp", .finite (Rat.divInt 1 4), 4⟩ := by decide

example : parse_evaluation "info score mate -3" =
    some ⟨"mate", .finite (-3), 0⟩ := by decide

example : parse_evaluation "info score" = none := by decide

example : parse_evaluation "bestmove e2e4" = none := by decide

example :
    buildCommands "startpos" 12 (some ["e2e4", "e7e5"]) =
      ["uci", "isready", "ucinewgame", "position startpos moves e2e4 e7e5",
        "go depth 12"] := by decide

example :
    buildCommands "8/8/8/8/8/8/8/K6k w - - 0 1" 5 none =
      ["uci", "isready", "ucinewgame", "position fen 8/8/8/8/8/8/8/K6k w - - 0 1",
        "go depth 5"] := by decide

example :
    runLoop ["info depth 4 score cp 25", "bestmove e2e4 ponder e7e5"] initState =
      { bestmove := some "e2e4", ponder := some "e7e5",
        evaluation := some ⟨"cp", .finite (Rat.divInt 1 4), 4⟩, best_depth := 4 } := by
  decide

example :
    queryResult 8 ["bestmove d2d4"] (some 0) "" =
      .ok { bestmove := "d2d4", ponder := none,
            evaluation := ⟨"cp", .finite 0, 8⟩ } := by decide

example : is_service_ready (.success " True\n") = true := by decide

example : is_service_ready (.success "false") = false := by decide

example : pyFloat "1e400" = some (.inf true) := by decide

example : pyFloat "-2e309" = some (.inf false) := by decide

example : parse_evaluation_outcome "info score cp 25 depth 4" =
    .ok (some ⟨"cp", .finite (Rat.divInt 1 4), 4⟩) := by decide

example : parse_evaluation_outcome "info score mate 99" =
    .ok (some ⟨"mate", .finite 99, 0⟩) := by decide

example : pyInt hugeCpToken = some ((10 : ℤ) ^ 400 - 1) := by decide

/-- The overflow bound in its plain form, 2^1024 − 2^970. -/
theorem doubleOverflowBound_eq :
    doubleOverflowBound = 2 ^ 1024 - 2 ^ 970 := by
  norm_num [doubleOverflowBound]

/-- `parse_evaluation` is exactly the non-raising behavior of
`_parse_evaluation`: on every line the faithful parser either raises or
returns what `parse_evaluation` returns. -/
theorem parse_outcome_refines (line : String) :
    parse_evaluation_outcome line = .error () ∨
    parse_evaluation_outcome line = .ok (parse_evaluation line) := by
  by_cases hmem : "score" ∈ pySplit line
  · cases h1 : (pySplit line)[(pySplit line).indexOf "score" + 1]? with
    | none =>
        right
        simp only [parse_evaluation_outcome, parse_evaluation, if_pos hmem, h1]
    | some ty =>
        cases h2 : (pySplit line)[(pySplit line).indexOf "score" + 2]? with
        | none =>
            right
            simp only [parse_evaluation_outcome, parse_evaluation,
              if_pos hmem, h1, h2]
        | some sv =>
            by_cases hcp : ty = "cp"
            · subst hcp
              cases hpi : pyInt sv with
              | none =>
                  right
                  simp only [parse_evaluation_outcome, parse_evaluation,
                    if_pos hmem, h1, h2, hpi]
                  simp
              | some n =>
                  by_cases hov : intToFloatOverflows n = true
                  · left
                    simp only [parse_evaluation_outcome, if_pos hmem, h1, h2,
                      hpi, hov]
                    simp
                  · right
                    have hov2 : intToFloatOverflows n = false :=
                      Bool.not_eq_true _ ▸ Bool.of_not_eq_true hov
                    simp only [parse_evaluation_outcome, parse_evaluation,
                      if_pos hmem, h1, h2, hpi, hov2]
                    simp
            · by_cases hmate : ty = "mate"
              · subst hmate
                right
                simp only [parse_evaluation_outcome, parse_evaluation,
                  if_pos hmem, h1, h2, if_neg hcp]
                simp
              · right
                simp only [parse_evaluation_outcome, parse_evaluation,
                  if_pos hmem, h1, h2, if_neg hcp, if_neg hmate]
  · right
    simp only [parse_evaluation_outcome, parse_evaluation, if_neg hmem]

/-- `runLoop` is exactly the non-raising behavior of the read loop: a
session either aborts with the propagated error or yields the
`runLoop` state. -/
theorem runLoopE_refines (lines : List String) : ∀ st : LoopState,
    runLoopE lines st = .error () ∨
    runLoopE lines st = .ok (runLoop lines st) := by
  induction lines with
  | nil => intro st; right; rfl
  | cons raw rest ih =>
      intro st
      rw [runLoopE, runLoop]
      by_cases h0 : pyStrip raw = ""
      · simp only [if_pos h0]
        exact ih st
      · by_cases h1 : pyStartsWith (pyStrip raw) "info" = true
        · simp only [if_neg h0, h1, if_true]
          rcases parse_outcome_refines (pyStrip raw) with herr | hok
          · left
            rw [herr]
          · rw [hok]
            exact ih _
        · by_cases hb : pyStartsWith (pyStrip raw) "bestmove" = true
          · simp only [if_neg h0, h1, Bool.false_eq_true, if_false, hb,
              if_true]
            exact Or.inr trivial
          · simp only [if_neg h0, h1, hb, Bool.false_eq_true, if_false]
            exact ih st

/-- On a stretch of output with no `bestmove` line, the loop leaves the
bestmove and ponder fields alone and folds the parsed `info`
evaluations into the tracked pair (evaluation, best depth). -/
theorem runLoop_track (lines : List String) : ∀ st : LoopState,
    (∀ raw ∈ lines, pyStartsWith (pyStrip raw) "bestmove" = false) →
    runLoop lines st =
      ⟨st.bestmove, st.ponder,
        (evalFold (parsedInfoEvals lines) (st.evaluation, st.best_depth)).1,
        (evalFold (parsedInfoEvals lines) (st.evaluation, st.best_depth)).2⟩ := by
  induction lines with
  | nil => intro st _; rfl
  | cons raw rest ih =>
      intro st h
      have hraw : pyStartsWith (pyStrip raw) "bestmove" = false := h raw (by simp)
      have hrest : ∀ r ∈ rest, pyStartsWith (pyStrip r) "bestmove" = false :=
        fun r hr => h r (List.mem_cons_of_mem _ hr)
      rw [runLoop]
      by_cases h0 : pyStrip raw = ""
      · have hc : trackedCandidate raw = none := by
          simp [trackedCandidate, h0]
        simp only [if_pos h0, ih st hrest, parsedInfoEvals, List.filterMap_cons,
          hc]
      · by_cases h1 : pyStartsWith (pyStrip raw) "info" = true
        · cases hp : parse_evaluation (pyStrip raw) with
          | none =>
              have hc : trackedCandidate raw = none := by
                simp [trackedCandidate, h0, h1, hp]
              simp only [if_neg h0, h1, if_true, hp, ih st hrest,
                parsedInfoEvals, List.filterMap_cons, hc]
          | some parsed =>
              have hc : trackedCandidate raw = some parsed := by
                simp [trackedCandidate, h0, h1, hp]
              by_cases h2 : st.best_depth ≤ parsed.depth
              · simp only [if_neg h0, h1, if_true, hp, if_pos h2, ih _ hrest,
                  parsedInfoEvals, List.filterMap_cons, hc, evalFold,
                  List.foldl_cons, evalStep, if_pos h2]
              · simp only [if_neg h0, h1, if_true, hp, if_neg h2, ih _ hrest,
                  parsedInfoEvals, List.filterMap_cons, hc, evalFold,
                  List.foldl_cons, evalStep, if_neg h2]
        · have hc : trackedCandidate raw = none := by
            simp [trackedCandidate, h0, h1]
          simp only [if_neg h0, h1, Bool.false_eq_true, if_false, hraw,
            ih st hrest, parsedInfoEvals, List.filterMap_cons, hc]

/-- Once an evaluation is tracked, the fold computes exactly the
deepest-or-latest evaluation of the remaining list. -/
theorem evalFold_from_some (es : List Evaluation) : ∀ b : Evaluation,
    evalFold es (some b, b.depth) =
      (some (es.foldl deeperOrLater b), (es.foldl deeperOrLater b).depth) := by
  induction es with
  | nil => intro b; rfl
  | cons e es2 ih =>
      intro b
      show evalFold es2 (evalStep (some b, b.depth) e) = _
      by_cases h : b.depth ≤ e.depth
      · rw [show evalStep (some b, b.depth) e = (some e, e.depth) by
          simp [evalStep, h]]
        rw [ih e]
        simp [deeperOrLater, h]
      · rw [show evalStep (some b, b.depth) e = (some b, b.depth) by
          simp [evalStep, h]]
        rw [ih b]
        simp [deeperOrLater, h]

/-- From the loop's initial pair (`none`, depth −1), on evaluations of
non-negative depth the fold selects the deepest evaluation, ties to the
latest. -/
theorem evalFold_init (es : List Evaluation)
    (h : ∀ e ∈ es, (0 : ℤ) ≤ e.depth) :
    (evalFold es (none, -1)).1 = lastArgmaxDepth es := by
  cases es with
  | nil => rfl
  | cons e es2 =>
      have he : (0 : ℤ) ≤ e.depth := h e (by simp)
      have h1 : evalStep ((none : Option Evaluation), (-1 : ℤ)) e =
          (some e, e.depth) := by
        simp only [evalStep]
        rw [if_pos (by omega)]
      show (evalFold es2 (evalStep (none, -1) e)).1 = _
      rw [h1, evalFold_from_some]
      rfl

/-- Splitting the loop at a bestmove-free stretch. -/
theorem runLoop_append (pre : List String) : ∀ (rest2 : List String)
    (st : LoopState),
    (∀ raw ∈ pre, pyStartsWith (pyStrip raw) "bestmove" = false) →
    runLoop (pre ++ rest2) st = runLoop rest2 (runLoop pre st) := by
  induction pre with
  | nil => intro rest2 st _; rfl
  | cons raw rest ih =>
      intro rest2 st h
      have hraw : pyStartsWith (pyStrip raw) "bestmove" = false := h raw (by simp)
      have hrest : ∀ r ∈ rest, pyStartsWith (pyStrip r) "bestmove" = false :=
        fun r hr => h r (List.mem_cons_of_mem _ hr)
      show runLoop (raw :: (rest ++ rest2)) st = _
      rw [runLoop, runLoop]
      by_cases h0 : pyStrip raw = ""
      · simp only [if_pos h0]
        exact ih rest2 st hrest
      · by_cases h1 : pyStartsWith (pyStrip raw) "info" = true
        · simp only [if_neg h0, h1, if_true]
          exact ih rest2 _ hrest
        · simp only [if_neg h0, h1, Bool.false_eq_true, if_false, hraw]
          exact ih rest2 st hrest

/-- A line that is exactly `bestmove` ends the loop, changes nothing in
the state, and ignores everything after it. -/
theorem runLoop_bare_bestmove (post : List String) (st : LoopState) :
    runLoop ("bestmove" :: post) st = st := by
  rw [runLoop]
  rw [if_neg (by decide : ¬ pyStrip "bestmove" = "")]
  rw [show pyStartsWith (pyStrip "bestmove") "info" = false by decide]
  rw [show pyStartsWith (pyStrip "bestmove") "bestmove" = true by decide]
  simp only [Bool.false_eq_true, if_false, if_true]
  show bestmoveStep st "bestmove" = st
  have ht : pySplit "bestmove" = ["bestmove"] := by decide
  simp [bestmoveStep, ht]

/-- C1 (amended): over lines processed by the read loop — a stretch
with no `bestmove` line — and provided every successfully parsed
`info`-line evaluation has non-negative depth, the tracked best
evaluation after the loop is the successfully parsed evaluation of
maximum depth, with ties at equal depth resolved in favor of the most
recently seen line. -/
theorem C1_tracked_best_is_deepest_latest (lines : List String)
    (hnb : ∀ raw ∈ lines, pyStartsWith (pyStrip raw) "bestmove" = false)
    (hd : ∀ e ∈ parsedInfoEvals lines, (0 : ℤ) ≤ e.depth) :
    (runLoop lines initState).evaluation =
      lastArgmaxDepth (parsedInfoEvals lines) := by
  rw [runLoop_track lines initState hnb]
  exact evalFold_init _ hd

/-- C1 witness: the spec's concrete sequence — depths [3,1,5,5,2] with
cp scores [10,20,30,40,50] — tracks the later depth-5 line, score 40
(i.e. 40/100 = 2/5 pawn units). -/
theorem C1_witness :
    (runLoop ["info depth 3 score cp 10", "info depth 1 score cp 20",
        "info depth 5 score cp 30", "info depth 5 score cp 40",
        "info depth 2 score cp 50"] initState).evaluation =
      some ⟨"cp", .finite (Rat.divInt 2 5), 5⟩ :=
  (C1_tracked_best_is_deepest_latest _ (by decide) (by decide)).trans (by decide)

/-- C1 counterexample: an `info` line with a negative two-digit depth
parses successfully and is the unique (hence maximum-depth) parsed
evaluation, yet the loop tracks nothing because its initial best depth
is −1 and the update requires `parsed.depth >= best_depth`. -/
theorem C1_counterexample :
    (runLoop ["info depth -2 score cp 7"] initState).evaluation = none ∧
    lastArgmaxDepth (parsedInfoEvals ["info depth -2 score cp 7"]) =
      some ⟨"cp", .finite (Rat.divInt 7 100), -2⟩ := by decide

/-- C2: when the loop reports a bestmove but no evaluation was ever
tracked and the exit code does not fail the call, the session returns
normally with the fallback evaluation {cp, 0.0, requested depth}. -/
theorem C2_fallback_evaluation (depth : ℤ) (lines : List String)
    (rc : Option ℤ) (err m : String)
    (hrc : rc = some 0 ∨ rc = none)
    (hbm : (runLoop lines initState).bestmove = some m)
    (hev : (runLoop lines initState).evaluation = none) :
    queryResult depth lines rc err =
      .ok { bestmove := m, ponder := (runLoop lines initState).ponder,
            evaluation := { score_type := "cp", score_value := .finite 0,
                            depth := depth } } := by
  simp only [queryResult]
  rw [if_pos hrc, hbm, hev]
  rfl

/-- C2 witness: output consisting only of `bestmove d2d4` at requested
depth 8 yields Prediction(bestmove="d2d4", ponder=None,
evaluation={cp, 0.0, 8}). -/
theorem C2_witness :
    queryResult 8 ["bestmove d2d4"] (some 0) "" =
      .ok { bestmove := "d2d4", ponder := none,
            evaluation := { score_type := "cp", score_value := .finite 0,
                            depth := 8 } } :=
  (C2_fallback_evaluation 8 ["bestmove d2d4"] (some 0) "" "d2d4"
      (Or.inl rfl) (by decide) (by decide)).trans (by decide)

/-- C4: for every request, the transmitted command lines are exactly,
in order, `uci`, `isready`, `ucinewgame`, the single `position` line of
spec §4.2, then `go depth <depth>`. -/
theorem C4_command_script (fen : String) (depth : ℤ)
    (moves : Option (List String)) :
    buildCommands fen depth moves = specCommandScript fen depth moves := by
  cases moves with
  | none =>
      by_cases hf : fen = "startpos" <;>
        simp [buildCommands, specCommandScript, specPositionCommand, hf]
  | some ms =>
      by_cases hms : ms = [] <;> by_cases hf : fen = "startpos" <;>
        simp [buildCommands, specCommandScript, specPositionCommand, hms, hf]

/-- C6: a non-zero exit code after the post-quit wait fails the call
with an engine failure carrying the stripped standard-error text,
unconditionally — whatever the output lines contained (in particular
even if a bestmove was consumed), and before the missing-bestmove
check. -/
theorem C6_nonzero_exit_engine_failure (depth : ℤ) (lines : List String)
    (r : ℤ) (err : String) (hr : r ≠ 0) :
    queryResult depth lines (some r) err =
      .error (.engineFailure ("Stockfish process failed: " ++ pyStrip err)) := by
  simp only [queryResult]
  rw [if_neg (by simp [hr])]

/-- C6 witness: exit code 1 after a consumed bestmove still fails with
the engine failure carrying the stderr text. -/
theorem C6_witness :
    queryResult 5 ["bestmove e2e4"] (some 1) " boom " =
      .error (.engineFailure "Stockfish process failed: boom") :=
  (C6_nonzero_exit_engine_failure 5 ["bestmove e2e4"] 1 " boom "
      (by decide)).trans (by decide)

/-- C7: if the output stream is exhausted without any line beginning
with `bestmove`, and the exit code does not fail the call first, the
session fails with the protocol failure ("no best move reported"). -/
theorem C7_no_bestmove_protocol_failure (depth : ℤ) (lines : List String)
    (rc : Option ℤ) (err : String)
    (hrc : rc = some 0 ∨ rc = none)
    (hnb : ∀ raw ∈ lines, pyStartsWith (pyStrip raw) "bestmove" = false) :
    queryResult depth lines rc err = .error .protocolFailure := by
  have hb : (runLoop lines initState).bestmove = none := by
    rw [runLoop_track lines initState hnb]
    rfl
  simp only [queryResult]
  rw [if_pos hrc, hb]

/-- C7 witness: output with only an `info` line and no `bestmove` fails
with the protocol failure. -/
theorem C7_witness :
    queryResult 3 ["info depth 2 score cp 11"] (some 0) "" =
      .error .protocolFailure :=
  C7_no_bestmove_protocol_failure 3 _ _ "" (Or.inl rfl) (by decide)

/-- C8: the readiness probe returns `false` on both expected-absence
outcomes (host not found, inspection command failed), and on success
returns `true` exactly when the trimmed status output matches the
running sentinel case-insensitively. -/
theorem C8_readiness_probe :
    is_service_ready .fileNotFound = false ∧
    is_service_ready .calledProcessError = false ∧
    ∀ out, (is_service_ready (.success out) = true ↔
      caseInsensitiveEq (pyStrip out) "true") := by
  refine ⟨rfl, rfl, fun out => ?_⟩
  have ht : pyLower "true" = "true" := by decide
  simp [is_service_ready, caseInsensitiveEq, ht]

/-- C10: a terminal line that is exactly `bestmove` (no second token)
still ends the read loop (later lines are ignored), records no move,
and — when the exit code does not fail the call first — the session
raises the same "no best move reported" protocol failure as when no
bestmove line was seen at all. -/
theorem C10_bestmove_without_token (depth : ℤ) (pre post : List String)
    (rc : Option ℤ) (err : String)
    (hrc : rc = some 0 ∨ rc = none)
    (hnb : ∀ raw ∈ pre, pyStartsWith (pyStrip raw) "bestmove" = false) :
    runLoop (pre ++ "bestmove" :: post) initState = runLoop pre initState ∧
    (runLoop (pre ++ "bestmove" :: post) initState).bestmove = none ∧
    queryResult depth (pre ++ "bestmove" :: post) rc err =
      .error .protocolFailure := by
  have h1 : runLoop (pre ++ "bestmove" :: post) initState =
      runLoop pre initState := by
    rw [runLoop_append pre _ initState hnb, runLoop_bare_bestmove]
  have h2 : (runLoop (pre ++ "bestmove" :: post) initState).bestmove = none := by
    rw [h1, runLoop_track pre initState hnb]
    rfl
  refine ⟨h1, h2, ?_⟩
  simp only [queryResult]
  rw [if_pos hrc, h2]

/-- C3 (amended): on a well-formed `info` line whose first `score`
token is followed by `cp` and a token denoting the integer v, with v
within double range (|v| < 2^1024 − 2^970, in particular every
realistic centipawn score), and whose first `depth` token is followed
by a token denoting the non-negative integer d, the parser returns —
without raising — exactly {cp, v/100.0, d}; and whenever the first
`score` token is followed by `mate` and a token denoting the integer
v, the parsed score_value is exactly v, with no division and no
raise (the mate branch performs no int-to-float conversion). -/
theorem C3_parse_exact_within_range :
    (∀ (line : String) (t : List String) (i j : ℕ) (v d : ℤ)
        (vtok dtok : String),
        pySplit line = t → "score" ∈ t → t.indexOf "score" = i →
        t[i + 1]? = some "cp" → t[i + 2]? = some vtok → pyInt vtok = some v →
        intToFloatOverflows v = false →
        "depth" ∈ t → t.indexOf "depth" = j → t[j + 1]? = some dtok →
        pyInt dtok = some d → 0 ≤ d →
        parse_evaluation_outcome line =
          .ok (some ⟨"cp", .finite ((v : ℚ) / 100), d⟩)) ∧
    (∀ (line : String) (t : List String) (i : ℕ) (v : ℤ) (vtok : String),
        pySplit line = t → "score" ∈ t → t.indexOf "score" = i →
        t[i + 1]? = some "mate" → t[i + 2]? = some vtok → pyInt vtok = some v →
        ∃ e, parse_evaluation_outcome line = .ok (some e) ∧
          e.score_type = "mate" ∧ e.score_value = .finite (v : ℚ)) := by
  constructor
  · intro line t i j v d vtok dtok ht hmem hi h1 h2 hv hov hdm hj h3 hd _
    have hdepth : depthOf t = d := by
      simp only [depthOf, if_pos hdm, hj, h3, hd]
      rfl
    simp only [parse_evaluation_outcome, ht, if_pos hmem, hi, h1, h2, hv,
      hov, hdepth]
    simp [divInt_hundred_eq_div]
  · intro line t i v vtok ht hmem hi h1 h2 hv
    have hne : ("mate" : String) ≠ "cp" := by decide
    refine ⟨⟨"mate", .finite (v : ℚ), depthOf t⟩, ?_, rfl, rfl⟩
    simp only [parse_evaluation_outcome, ht, if_pos hmem, hi, h1, h2, hv,
      if_neg hne]
    simp

/-- C3 witness: `info depth 4 score cp 25` parses, without raising, to
exactly {cp, 25/100, 4}, and `info score mate -3` parses with
score_value exactly −3. -/
theorem C3_witness :
    parse_evaluation_outcome "info depth 4 score cp 25" =
      .ok (some ⟨"cp", .finite ((25 : ℚ) / 100), 4⟩) ∧
    ∃ e, parse_evaluation_outcome "info score mate -3" = .ok (some e) ∧
      e.score_type = "mate" ∧ e.score_value = .finite ((-3 : ℤ) : ℚ) :=
  ⟨C3_parse_exact_within_range.1 "info depth 4 score cp 25"
      ["info", "depth", "4", "score", "cp", "25"] 3 1 25 4 "25" "4"
      (by decide) (by decide) (by decide) (by decide) (by decide) (by decide)
      (by decide) (by decide) (by decide) (by decide) (by decide) (by decide),
    C3_parse_exact_within_range.2 "info score mate -3"
      ["info", "score", "mate", "-3"] 1 (-3) "-3" (by decide) (by decide)
      (by decide) (by decide) (by decide) (by decide)⟩

/-- C3 counterexample: `info score cp 99…9` (400 nines) is a
well-formed cp line — the raw value token denotes the integer
10^400 − 1 — yet the source raises an uncaught OverflowError at the
`int(score_value) / 100.0` division instead of returning the claimed
Evaluation. -/
theorem C3_counterexample :
    pyInt hugeCpToken = some ((10 : ℤ) ^ 400 - 1) ∧
    parse_evaluation_outcome hugeCpLine = .error () := by decide

/-- C5 (amended): every caught failure mode makes the parse return
nothing and the read loop treat the line as a no-op — no `score`
token, a missing token at `score`-index + 2 (which covers both
required tokens after `score`), a failing integer conversion for
`cp`/`mate`, or a failing float conversion for other score types — and
the parser raises (the cp division's int-to-float OverflowError, which
`except ValueError` does not catch, aborting the read loop and
surfacing to the caller) exactly when the token after the first
`score` is `cp` and the next token denotes an integer at or beyond
double range. -/
theorem C5_parse_failure_modes :
    (∀ line, "score" ∉ pySplit line →
        parse_evaluation_outcome line = .ok none) ∧
    (∀ (line : String) (t : List String) (i : ℕ),
        pySplit line = t → "score" ∈ t → t.indexOf "score" = i →
        t[i + 2]? = none → parse_evaluation_outcome line = .ok none) ∧
    (∀ (line : String) (t : List String) (i : ℕ) (ty sv : String),
        pySplit line = t → "score" ∈ t → t.indexOf "score" = i →
        t[i + 1]? = some ty → t[i + 2]? = some sv →
        ((ty = "cp" ∨ ty = "mate") → pyInt sv = none →
            parse_evaluation_outcome line = .ok none) ∧
        (ty ≠ "cp" → ty ≠ "mate" → pyFloat sv = none →
            parse_evaluation_outcome line = .ok none)) ∧
    (∀ (raw : String) (rest : List String) (st : LoopState),
        pyStartsWith (pyStrip raw) "info" = true →
        parse_evaluation_outcome (pyStrip raw) = .ok none →
        runLoopE (raw :: rest) st = runLoopE rest st) ∧
    (∀ line, parse_evaluation_outcome line = .error () →
        ∃ i sv n, "score" ∈ pySplit line ∧
          (pySplit line).indexOf "score" = i ∧
          (pySplit line)[i + 1]? = some "cp" ∧
          (pySplit line)[i + 2]? = some sv ∧ pyInt sv = some n ∧
          intToFloatOverflows n = true) := by
  refine ⟨?_, ?_, ?_, ?_, ?_⟩
  · intro line hmem
    simp only [parse_evaluation_outcome, if_neg hmem]
  · intro line t i ht hmem hi h2
    cases h1 : t[i + 1]? with
    | none => simp only [parse_evaluation_outcome, ht, if_pos hmem, hi, h1, h2]
    | some ty => simp only [parse_evaluation_outcome, ht, if_pos hmem, hi, h1, h2]
  · intro line t i ty sv ht hmem hi h1 h2
    constructor
    · rintro (rfl | rfl) hpi <;>
      · simp only [parse_evaluation_outcome, ht, if_pos hmem, hi, h1, h2, hpi]
        simp
    · intro hty1 hty2 hpf
      simp only [parse_evaluation_outcome, ht, if_pos hmem, hi, h1, h2,
        if_neg hty1, if_neg hty2, hpf]
      simp
  · intro raw rest st hinfo hparse
    rw [runLoopE]
    have h0 : ¬ pyStrip raw = "" := by
      intro h0
      rw [h0] at hinfo
      exact absurd hinfo (by decide)
    rw [if_neg h0]
    simp only [hinfo, if_true, hparse]
  · intro line h
    by_cases hmem : "score" ∈ pySplit line
    · cases h1 : (pySplit line)[(pySplit line).indexOf "score" + 1]? with
      | none =>
          rw [show parse_evaluation_outcome line = .ok none by
            simp only [parse_evaluation_outcome, if_pos hmem, h1]] at h
          exact absurd h (by simp)
      | some ty =>
          cases h2 : (pySplit line)[(pySplit line).indexOf "score" + 2]? with
          | none =>
              rw [show parse_evaluation_outcome line = .ok none by
                simp only [parse_evaluation_outcome, if_pos hmem, h1, h2]] at h
              exact absurd h (by simp)
          | some sv =>
              by_cases hcp : ty = "cp"
              · subst hcp
                cases hpi : pyInt sv with
                | none =>
                    rw [show parse_evaluation_outcome line = .ok none by
                      simp only [parse_evaluation_outcome, if_pos hmem, h1,
                        h2, hpi]
                      simp] at h
                    exact absurd h (by simp)
                | some n =>
                    by_cases hov : intToFloatOverflows n = true
                    · exact ⟨(pySplit line).indexOf "score", sv, n, hmem, rfl,
                        h1, h2, hpi, hov⟩
                    · have hov2 : intToFloatOverflows n = false :=
                        Bool.not_eq_true _ ▸ Bool.of_not_eq_true hov
                      rw [show parse_evaluation_outcome line =
                          .ok (some ⟨"cp", .finite (Rat.divInt n 100),
                            depthOf (pySplit line)⟩) by
                        simp only [parse_evaluation_outcome, if_pos hmem, h1,
                          h2, hpi, hov2]
                        simp] at h
                      exact absurd h (by simp)
              · by_cases hmate : ty = "mate"
                · subst hmate
                  rw [show parse_evaluation_outcome line = .ok
                      ((pyInt sv).map (fun (n : ℤ) =>
                        ⟨"mate", .finite (n : ℚ), depthOf (pySplit line)⟩)) by
                    simp only [parse_evaluation_outcome, if_pos hmem, h1, h2,
                      if_neg hcp]
                    simp] at h
                  exact absurd h (by simp)
                · rw [show parse_evaluation_outcome line = .ok
                      ((pyFloat sv).map (fun x =>
                        ⟨ty, x, depthOf (pySplit line)⟩)) by
                    simp only [parse_evaluation_outcome, if_pos hmem, h1, h2,
                      if_neg hcp, if_neg hmate]] at h
                  exact absurd h (by simp)
    · rw [show parse_evaluation_outcome line = .ok none by
        simp only [parse_evaluation_outcome, if_neg hmem]] at h
      exact absurd h (by simp)

/-- C5 witness: a line without `score` parses to nothing, and an `info`
line whose cp value fails integer conversion leaves the loop state
untouched, with no error surfacing. -/
theorem C5_witness :
    parse_evaluation_outcome "hello world" = .ok none ∧
    runLoopE ["info score cp xyz"] initState = .ok initState :=
  ⟨C5_parse_failure_modes.1 "hello world" (by decide),
    (C5_parse_failure_modes.2.2.2.1 "info score cp xyz" [] initState
      (by decide) (by decide)).trans rfl⟩

/-- C5 counterexample: on `info score cp 99…9` (400 nines) the parser
does not return at all — the OverflowError raised at the cp division
escapes the `except ValueError` — and the error propagates out of the
read loop to the caller instead of the line being a silent no-op. -/
theorem C5_counterexample :
    parse_evaluation_outcome hugeCpLine = .error () ∧
    runLoopE [hugeCpLine] initState = .error () := by decide

/-- C9 (amended): every Evaluation the parser produces carries exactly
the depth extracted from the line's `depth` token (0 when absent or
unparseable) — hence a non-negative depth whenever that token does not
denote a negative integer — and a finite score_value whenever its
score_type is `cp` or `mate`; the fallback Evaluation is {cp, finite 0,
requested depth}, of non-negative depth whenever the requested depth is
non-negative. -/
theorem C9_invariant :
    (∀ (line : String) (e : Evaluation), parse_evaluation line = some e →
        e.depth = depthOf (pySplit line) ∧
        ((e.score_type = "cp" ∨ e.score_type = "mate") →
          ∃ q, e.score_value = PyNum.finite q)) ∧
    (∀ d : ℤ, (fallbackEvaluation d).score_type = "cp" ∧
        (fallbackEvaluation d).score_value = PyNum.finite 0 ∧
        (fallbackEvaluation d).depth = d ∧
        (0 ≤ d → 0 ≤ (fallbackEvaluation d).depth)) := by
  constructor
  · intro line e h
    simp only [parse_evaluation] at h
    split at h
    · split at h
      · rename_i ty sv h1 h2
        split at h
        · cases hpi : pyInt sv with
          | none => rw [hpi] at h; exact absurd h (by simp)
          | some n =>
              rw [hpi] at h
              simp at h
              subst h
              exact ⟨rfl, fun _ => ⟨_, rfl⟩⟩
        · split at h
          · cases hpi : pyInt sv with
            | none => rw [hpi] at h; exact absurd h (by simp)
            | some n =>
                rw [hpi] at h
                simp at h
                subst h
                exact ⟨rfl, fun _ => ⟨_, rfl⟩⟩
          · rename_i hty1 hty2
            cases hpf : pyFloat sv with
            | none => rw [hpf] at h; exact absurd h (by simp)
            | some x =>
                rw [hpf] at h
                simp at h
                subst h
                refine ⟨rfl, fun hc => ?_⟩
                exact absurd hc (by simp [hty1, hty2])
      · exact absurd h (by simp)
    · exact absurd h (by simp)
  · intro d
    exact ⟨rfl, rfl, rfl, fun hd => hd⟩

/-- C9 witness: `info score cp 10` produces an Evaluation whose depth
is exactly the depth extracted from the line (here 0, no depth
token). -/
theorem C9_witness :
    (⟨"cp", PyNum.finite (Rat.divInt 1 10), 0⟩ : Evaluation).depth =
      depthOf (pySplit "info score cp 10") :=
  (C9_invariant.1 "info score cp 10" ⟨"cp", PyNum.finite (Rat.divInt 1 10), 0⟩
      (by decide)).1

/-- C9 counterexample: the line `info depth -2 score cp 7` makes the
parser produce an Evaluation with the negative depth −2, violating the
claimed `depth >= 0` invariant. -/
theorem C9_counterexample :
    parse_evaluation "info depth -2 score cp 7" =
      some ⟨"cp", PyNum.finite (Rat.divInt 7 100), -2⟩ ∧
    ((⟨"cp", PyNum.finite (Rat.divInt 7 100), -2⟩ : Evaluation).depth < 0) := by
  decide

/-- C10 witness: a bare `bestmove` after an `info` line, followed by
further output, yields the protocol failure. -/
theorem C10_witness :
    queryResult 2 (["info depth 1 score cp 5"] ++ "bestmove" :: ["ignored"])
      (some 0) "" = .error .protocolFailure :=
  (C10_bestmove_without_token 2 ["info depth 1 score cp 5"] ["ignored"]
      (some 0) "" (Or.inl rfl) (by decide)).2.2

end StockfishClient
